import Mathlib

/-!
Verification of the CollabVerse social-graph and compatibility engine.

The definitions below are a shallow embedding of the client-side core of the
repository:

* `calculateCompatibility` and `makeTeam` from
  `src/peerlens-ai/src/services/api.ts` (lines 81-115 and 277-306);
* `calculateConnectionStrength`, the edge-building loop and `applyForces`
  from `src/peerlens-ai/src/components/NetworkGraph.tsx`
  (lines 109-134, 236-295 and 475-491).

JavaScript numbers are modelled as exact rationals (`ℚ`) except in the
physics step `applyForces`, whose square roots require `ℝ`.  Counts are
naturals, `Math.round` is Mathlib `round` (both are floor of x + 1/2 on the
values that occur here), and JS `Array.prototype.sort` with the numeric
comparator used in the source is a stable sort, embedded as the stable
insertion sort `sortByDesc`.
-/

namespace CollabVerse

/-- One entry of a profile tech stack (interface `TechStack` in
`NetworkGraph.tsx`): a technology name, a proficiency level and a
confidence value. -/
structure TechEntry where
  name : String
  level : String
  confidence : ℚ
deriving DecidableEq, Repr

/-- GitHub activity statistics of a profile (interface `GithubStats`).
The `languages` object is modelled as an association list whose keys are
the language names, in object-key order. -/
structure GithubStats where
  repos : ℕ
  followers : ℕ
  stars : ℕ
  forks : ℕ
  languages : List (String × ℚ)
deriving DecidableEq, Repr

/-- A student profile (interface `User` in `NetworkGraph.tsx`); the fields
not used by the scoring code are kept for model fidelity. -/
structure Student where
  id : String
  name : String
  github_username : String
  bio : String
  tech_stack : List TechEntry
  github_stats : GithubStats
  projects : List String
  seeking : List String
deriving DecidableEq, Repr

/-- JS `String.prototype.toLowerCase`, modelled character-wise (this is
extensionally `String.toLower`, written via `List.map` so that it reduces
definitionally). -/
def jsToLower (s : String) : String :=
  String.mk (s.data.map Char.toLower)

/-- JS `Array.prototype.join(sep)`. -/
def jsJoin (sep : String) : List String → String
  | [] => ""
  | [s] => s
  | s :: rest => s ++ sep ++ jsJoin sep rest

/-- JS `String.prototype.includes`: substring test. -/
def jsIncludes (s sub : String) : Bool :=
  decide (sub.data <:+: s.data)

/-- The lower-cased tech-stack names of a profile
(`tech_stack.map(tech => tech.name.toLowerCase())`, api.ts lines 281-282). -/
def techNames (s : Student) : List String :=
  s.tech_stack.map (fun t => jsToLower t.name)

/-- Tech-stack overlap term of the compatibility score (api.ts lines
280-284): common lower-cased tech count over the anchor tech count
(floored at 1), scaled to 40. -/
def techScore (main candidate : Student) : ℚ :=
  let mainTechs := techNames main
  let candidateTechs := techNames candidate
  let commonTechs := mainTechs.filter (fun t => decide (t ∈ candidateTechs))
  ((commonTechs.length : ℚ) / max (mainTechs.length : ℚ) 1) * 40

/-- The activity level of a profile: `repos + followers`
(api.ts lines 287-288). -/
def activityOf (s : Student) : ℕ :=
  s.github_stats.repos + s.github_stats.followers

/-- Activity-similarity term of the compatibility score (api.ts lines
286-291): `(1 - |a1 - a2| / max(a1, a2, 1)) * 25`. -/
def activityScore (main candidate : Student) : ℚ :=
  let mainActivity : ℚ := (activityOf main : ℚ)
  let candidateActivity : ℚ := (activityOf candidate : ℚ)
  let activityDiff := |mainActivity - candidateActivity|
  let maxActivity := max (max mainActivity candidateActivity) 1
  (1 - activityDiff / maxActivity) * 25

/-- The language keys of a profile (`Object.keys(github_stats.languages)`). -/
def languageKeys (s : Student) : List String :=
  s.github_stats.languages.map Prod.fst

/-- Language-overlap term of the compatibility score (api.ts lines 293-297):
common language-key count over the anchor language count (floored at 1),
scaled to 20. -/
def languageScore (main candidate : Student) : ℚ :=
  let mainLanguages := languageKeys main
  let candidateLanguages := languageKeys candidate
  let commonLanguages := mainLanguages.filter (fun l => decide (l ∈ candidateLanguages))
  ((commonLanguages.length : ℚ) / max (mainLanguages.length : ℚ) 1) * 20

/-- Project-affinity test of the compatibility score (api.ts lines 299-302):
one joined, lower-cased project text is a substring of the other. -/
def projectMatch (main candidate : Student) : Bool :=
  let mainProjects := jsToLower (jsJoin " " main.projects)
  let candidateProjects := jsToLower (jsJoin " " candidate.projects)
  jsIncludes mainProjects candidateProjects || jsIncludes candidateProjects mainProjects

/-- Project-affinity term of the compatibility score (api.ts line 303):
15 on a match, otherwise the fallback 5. -/
def projectScore (main candidate : Student) : ℚ :=
  if projectMatch main candidate then 15 else 5

/-- `calculateCompatibility` (api.ts lines 277-306): the weighted sum of the
four terms, rounded to the nearest integer and capped at 100. -/
def calculateCompatibility (main candidate : Student) : ℤ :=
  min (round (techScore main candidate + activityScore main candidate +
      languageScore main candidate + projectScore main candidate)) 100

/-- GitHub statistics as they may actually arrive from the backend: the
`languages` object can be missing, which the source guards with
`github_stats.languages || {}` (api.ts lines 294-295). -/
structure RawGithubStats where
  repos : ℕ
  followers : ℕ
  stars : ℕ
  forks : ℕ
  languages : Option (List (String × ℚ))
deriving DecidableEq, Repr

/-- A duck-typed profile as the scorer may actually receive it: the
`tech_stack` and `projects` collections can be missing.  The source
dereferences both without a guard. -/
structure RawStudent where
  id : String
  tech_stack : Option (List TechEntry)
  github_stats : RawGithubStats
  projects : Option (List String)
deriving DecidableEq, Repr

/-- Fills the optional collections of a raw profile with empty defaults
(the unused display fields are filled with empty strings). -/
def defaultedStudent (r : RawStudent) : Student where
  id := r.id
  name := ""
  github_username := ""
  bio := ""
  tech_stack := r.tech_stack.getD []
  github_stats :=
    { repos := r.github_stats.repos
      followers := r.github_stats.followers
      stars := r.github_stats.stars
      forks := r.github_stats.forks
      languages := r.github_stats.languages.getD [] }
  projects := r.projects.getD []
  seeking := []

/-- `calculateCompatibility` under JS dynamic semantics on duck-typed input:
`main.tech_stack.map(...)` (line 281) and `main.projects.join(...)`
(line 300) throw a `TypeError` when the collection is `undefined`, in
source order, while a missing `languages` object is defaulted to `{}` by
the `||` guard on lines 294-295.  On fields that are present the
computation is the one embedded in `calculateCompatibility`. -/
def calculateCompatibilityJS (main candidate : RawStudent) : Except String ℤ :=
  match main.tech_stack with
  | none => Except.error "TypeError: main.tech_stack is undefined"
  | some mainStack =>
  match candidate.tech_stack with
  | none => Except.error "TypeError: candidate.tech_stack is undefined"
  | some candidateStack =>
  match main.projects with
  | none => Except.error "TypeError: main.projects is undefined"
  | some mainProjectList =>
  match candidate.projects with
  | none => Except.error "TypeError: candidate.projects is undefined"
  | some candidateProjectList =>
    let mainTechs := mainStack.map (fun t => jsToLower t.name)
    let candidateTechs := candidateStack.map (fun t => jsToLower t.name)
    let commonTechs := mainTechs.filter (fun t => decide (t ∈ candidateTechs))
    let techTerm : ℚ := ((commonTechs.length : ℚ) / max (mainTechs.length : ℚ) 1) * 40
    let mainActivity : ℚ := ((main.github_stats.repos + main.github_stats.followers : ℕ) : ℚ)
    let candidateActivity : ℚ :=
      ((candidate.github_stats.repos + candidate.github_stats.followers : ℕ) : ℚ)
    let activityDiff := |mainActivity - candidateActivity|
    let maxActivity := max (max mainActivity candidateActivity) 1
    let activityTerm : ℚ := (1 - activityDiff / maxActivity) * 25
    let mainLanguages := (main.github_stats.languages.getD []).map Prod.fst
    let candidateLanguages := (candidate.github_stats.languages.getD []).map Prod.fst
    let commonLanguages := mainLanguages.filter (fun l => decide (l ∈ candidateLanguages))
    let languageTerm : ℚ :=
      ((commonLanguages.length : ℚ) / max (mainLanguages.length : ℚ) 1) * 20
    let mainProjects := jsToLower (jsJoin " " mainProjectList)
    let candidateProjects := jsToLower (jsJoin " " candidateProjectList)
    let pMatch := jsIncludes mainProjects candidateProjects ||
      jsIncludes candidateProjects mainProjects
    let projectTerm : ℚ := if pMatch then 15 else 5
    Except.ok (min (round (techTerm + activityTerm + languageTerm + projectTerm)) 100)

/-- Inserts `x` into a list sorted in descending key order, before the first
element whose key is not larger: together with `sortByDesc` this is the
stable descending sort performed by `.sort((a, b) => key(b) - key(a))`
(api.ts line 98, NetworkGraph.tsx line 118, spec-mandated stable in JS). -/
def insertDesc {α β : Type} [LinearOrder β] (f : α → β) (x : α) : List α → List α
  | [] => [x]
  | y :: ys => if f y ≤ f x then x :: y :: ys else y :: insertDesc f x ys

/-- Stable insertion sort, descending in the key `f`. -/
def sortByDesc {α β : Type} [LinearOrder β] (f : α → β) : List α → List α
  | [] => []
  | x :: xs => insertDesc f x (sortByDesc f xs)

/-- The scored-candidate list of `makeTeam` (api.ts lines 92-95): each
remaining student paired with its compatibility score against the anchor. -/
def scoreCandidates (mainStudent : Student) (others : List Student) : List (Student × ℤ) :=
  others.map (fun student => (student, calculateCompatibility mainStudent student))

/-- `makeTeam` (api.ts lines 81-115): find the anchor (throwing
`Main student not found` when absent), score every other student, sort by
descending compatibility (stable) and keep the top 3.  The result models
the `members` field of the returned object; the `reasoning` and
`required_skill` fields are presentation strings built from the same
members list and are not modelled. -/
def makeTeam (mainStudentId : String) (allStudents : List Student) :
    Except String (List (Student × ℤ)) :=
  match allStudents.find? (fun s => decide (s.id = mainStudentId)) with
  | none => Except.error "Main student not found"
  | some mainStudent =>
    let otherStudents := allStudents.filter (fun s => decide (s.id ≠ mainStudentId))
    let scoredStudents := scoreCandidates mainStudent otherStudents
    Except.ok ((sortByDesc Prod.snd scoredStudents).take 3)

/-- `calculateConnectionStrength` (NetworkGraph.tsx lines 475-491):
common-tech count times 0.4, plus `(1 - min(|a1 - a2| / 50, 1)) * 0.3`,
capped at 1. -/
def calculateConnectionStrength (user1 user2 : Student) : ℚ :=
  let techs1 := user1.tech_stack.map (fun t => jsToLower t.name)
  let techs2 := user2.tech_stack.map (fun t => jsToLower t.name)
  let commonTechs := techs1.filter (fun t => decide (t ∈ techs2))
  let techTerm : ℚ := (commonTechs.length : ℚ) * (4/10)
  let activity1 : ℚ := (activityOf user1 : ℚ)
  let activity2 : ℚ := (activityOf user2 : ℚ)
  let activityDiff := |activity1 - activity2|
  min (techTerm + (1 - min (activityDiff / 50) 1) * (3/10)) 1

/-- Modelled from the spec words of claim C5, for comparison with the
source: tech-overlap count times 0.4 plus activity similarity times 0.3,
where the activity similarity is the compatibility-scorer formula
`1 - |a1 - a2| / max(a1, a2, 1)`. -/
def claimedConnectionStrength (user1 user2 : Student) : ℚ :=
  let techs1 := user1.tech_stack.map (fun t => jsToLower t.name)
  let techs2 := user2.tech_stack.map (fun t => jsToLower t.name)
  let commonTechs := techs1.filter (fun t => decide (t ∈ techs2))
  let activity1 : ℚ := (activityOf user1 : ℚ)
  let activity2 : ℚ := (activityOf user2 : ℚ)
  (commonTechs.length : ℚ) * (4/10) +
    (1 - |activity1 - activity2| / max (max activity1 activity2) 1) * (3/10)

/-- A directed graph edge as pushed by the edge-building loop, with the
source and target given as node indices. -/
structure GraphEdge where
  source : ℕ
  target : ℕ
  strength : ℚ
deriving DecidableEq, Repr

/-- Candidate list for one source node (NetworkGraph.tsx lines 112-117):
every other node index paired with the connection strength from the
source user. -/
def nodeCandidates (users : List Student) (i : ℕ) (u : Student) : List (ℕ × ℚ) :=
  (users.enum.filter (fun p => decide (p.1 ≠ i))).map
    (fun p => (p.1, calculateConnectionStrength u p.2))

/-- Edges pushed for one source node (NetworkGraph.tsx lines 112-131): sort
the candidates by descending similarity, keep the first
`min(3, users.length - 1)`, and push an edge for each one whose similarity
exceeds 0.3. -/
def nodeEdges (users : List Student) (i : ℕ) (u : Student) : List GraphEdge :=
  (((sortByDesc Prod.snd (nodeCandidates users i u)).take
      (min 3 (users.length - 1))).filter (fun p => decide ((3:ℚ)/10 < p.2))).map
    (fun p => { source := i, target := p.1, strength := p.2 })

/-- The full edge set built by the graph-construction effect
(NetworkGraph.tsx lines 109-131): the per-node edges, over every node in
order. -/
def buildEdges (users : List Student) : List GraphEdge :=
  users.enum.flatMap (fun p => nodeEdges users p.1 p.2)

/-- Canvas width constant (NetworkGraph.tsx line 75). -/
def CANVAS_WIDTH : ℝ := 800

/-- Canvas height constant (NetworkGraph.tsx line 76). -/
def CANVAS_HEIGHT : ℝ := 400

/-- The simulation state of a graph node (interface `GraphNode`): position,
velocity and radius over the reals; the visual fields that `applyForces`
never reads are omitted. -/
structure SimNode where
  id : String
  x : ℝ
  y : ℝ
  vx : ℝ
  vy : ℝ
  radius : ℝ

/-- A simulation edge (interface `GraphEdge`): the two endpoint nodes and
the strength. -/
structure SimEdge where
  source : SimNode
  target : SimNode
  strength : ℝ

/-- The node-repulsion accumulation step (NetworkGraph.tsx lines 246-258),
folded over all nodes: inverse-square repulsion inside the 150-unit
cutoff, skipping the node itself and coincident positions. -/
noncomputable def repulsionStep (node : SimNode) (v : ℝ × ℝ) (other : SimNode) : ℝ × ℝ :=
  if other.id = node.id then v
  else
    let dx := node.x - other.x
    let dy := node.y - other.y
    let distance := Real.sqrt (dx * dx + dy * dy)
    if 0 < distance ∧ distance < 150 then
      let force := 1000 / (distance * distance)
      (v.1 + dx / distance * force, v.2 + dy / distance * force)
    else v

/-- The edge-attraction accumulation step (NetworkGraph.tsx lines 261-274),
folded over all edges: spring force toward the 100-unit rest length,
scaled by the edge strength, on edges incident to the node. -/
noncomputable def attractionStep (node : SimNode) (v : ℝ × ℝ) (edge : SimEdge) : ℝ × ℝ :=
  if edge.source.id = node.id ∨ edge.target.id = node.id then
    let other := if edge.source.id = node.id then edge.target else edge.source
    let dx := node.x - other.x
    let dy := node.y - other.y
    let distance := Real.sqrt (dx * dx + dy * dy)
    if 0 < distance then
      let force := (distance - 100) * 0.015 * edge.strength
      (v.1 - dx / distance * force, v.2 - dy / distance * force)
    else v
  else v

/-- The velocity produced by one `applyForces` call before integration
(NetworkGraph.tsx lines 241-283): damping by 0.7, repulsion, edge
attraction, then the gentle center force beyond half the center radius. -/
noncomputable def stepVelocity (node : SimNode) (allNodes : List SimNode)
    (allEdges : List SimEdge) : ℝ × ℝ :=
  let v0 : ℝ × ℝ := (node.vx * 0.7, node.vy * 0.7)
  let v1 := allNodes.foldl (repulsionStep node) v0
  let v2 := allEdges.foldl (attractionStep node) v1
  let dxCenter := CANVAS_WIDTH / 2 - node.x
  let dyCenter := CANVAS_HEIGHT / 2 - node.y
  let distCenter := Real.sqrt (dxCenter * dxCenter + dyCenter * dyCenter)
  if CANVAS_WIDTH / 2 * 0.5 < distCenter then
    (v2.1 + dxCenter * 0.0002, v2.2 + dyCenter * 0.0002)
  else v2

/-- The x-axis boundary clamp of `applyForces` (NetworkGraph.tsx lines
290-291): `Math.max(margin, Math.min(CANVAS_WIDTH - margin, x))` with
`margin = radius + 15`. -/
noncomputable def clampX (radius x : ℝ) : ℝ :=
  max (radius + 15) (min (CANVAS_WIDTH - (radius + 15)) x)

/-- The y-axis boundary clamp of `applyForces` (NetworkGraph.tsx lines
290-292). -/
noncomputable def clampY (radius y : ℝ) : ℝ :=
  max (radius + 15) (min (CANVAS_HEIGHT - (radius + 15)) y)

/-- `applyForces` (NetworkGraph.tsx lines 236-295): one simulation step for
one node — accumulate the damped forces, integrate the position with the
0.1 step scalar, and clamp it to the canvas. -/
noncomputable def applyForces (node : SimNode) (allNodes : List SimNode)
    (allEdges : List SimEdge) : SimNode :=
  let v := stepVelocity node allNodes allEdges
  { node with
    x := clampX node.radius (node.x + v.1 * 0.1)
    y := clampY node.radius (node.y + v.2 * 0.1)
    vx := v.1
    vy := v.2 }

section SortLemmas

variable {α β : Type} [LinearOrder β] (f : α → β)

lemma insertDesc_perm (x : α) (l : List α) : List.Perm (insertDesc f x l) (x :: l) := by
  induction l with
  | nil => simp [insertDesc]
  | cons y ys ih =>
    by_cases hc : f y ≤ f x
    · simp [insertDesc, hc]
    · simp only [insertDesc, if_neg hc]
      exact (ih.cons y).trans (List.Perm.swap x y ys)

lemma sortByDesc_perm (l : List α) : List.Perm (sortByDesc f l) l := by
  induction l with
  | nil => simp [sortByDesc]
  | cons x xs ih =>
    exact (insertDesc_perm f x (sortByDesc f xs)).trans (ih.cons x)

lemma insertDesc_pairwise (x : α) (l : List α)
    (h : l.Pairwise (fun a b => f b ≤ f a)) :
    (insertDesc f x l).Pairwise (fun a b => f b ≤ f a) := by
  induction l with
  | nil => simp [insertDesc]
  | cons y ys ih =>
    rcases List.pairwise_cons.mp h with ⟨hy, hys⟩
    by_cases hc : f y ≤ f x
    · simp only [insertDesc, if_pos hc]
      refine List.pairwise_cons.mpr ⟨?_, h⟩
      intro z hz
      rcases List.mem_cons.mp hz with hz | hz
      · exact hz ▸ hc
      · exact le_trans (hy z hz) hc
    · simp only [insertDesc, if_neg hc]
      refine List.pairwise_cons.mpr ⟨?_, ih hys⟩
      intro z hz
      have hz2 : z ∈ x :: ys := (insertDesc_perm f x ys).mem_iff.mp hz
      rcases List.mem_cons.mp hz2 with hz2 | hz2
      · exact hz2 ▸ le_of_lt (lt_of_not_le hc)
      · exact hy z hz2

lemma sortByDesc_pairwise (l : List α) :
    (sortByDesc f l).Pairwise (fun a b => f b ≤ f a) := by
  induction l with
  | nil => simp [sortByDesc]
  | cons x xs ih => exact insertDesc_pairwise f x (sortByDesc f xs) ih

lemma insertDesc_filter_of_eq (x : α) (l : List α) (v : β) (hx : f x = v) :
    (insertDesc f x l).filter (fun a => decide (f a = v)) =
      x :: l.filter (fun a => decide (f a = v)) := by
  induction l with
  | nil => simp [insertDesc, hx]
  | cons y ys ih =>
    by_cases hc : f y ≤ f x
    · simp only [insertDesc, if_pos hc]
      simp [List.filter_cons, hx]
    · have hy : ¬ (f y = v) := by
        intro hyv
        exact hc (le_of_eq (hx ▸ hyv))
      simp [insertDesc, if_neg hc, List.filter_cons, hy, ih]

lemma insertDesc_filter_of_ne (x : α) (l : List α) (v : β) (hx : ¬ (f x = v)) :
    (insertDesc f x l).filter (fun a => decide (f a = v)) =
      l.filter (fun a => decide (f a = v)) := by
  induction l with
  | nil => simp [insertDesc, hx]
  | cons y ys ih =>
    by_cases hc : f y ≤ f x
    · simp [insertDesc, if_pos hc, List.filter_cons, hx]
    · simp [insertDesc, if_neg hc, List.filter_cons, ih]

lemma sortByDesc_filter (l : List α) (v : β) :
    (sortByDesc f l).filter (fun a => decide (f a = v)) =
      l.filter (fun a => decide (f a = v)) := by
  induction l with
  | nil => simp [sortByDesc]
  | cons x xs ih =>
    by_cases hx : f x = v
    · rw [sortByDesc, insertDesc_filter_of_eq f x _ v hx, ih]
      simp [List.filter_cons, hx]
    · rw [sortByDesc, insertDesc_filter_of_ne f x _ v hx, ih]
      simp [List.filter_cons, hx]

lemma pairwise_take_drop {R : α → α → Prop} {l : List α} (h : l.Pairwise R) (n : ℕ) :
    ∀ x ∈ l.take n, ∀ y ∈ l.drop n, R x y := by
  have hsplit := List.take_append_drop n l
  rw [← hsplit] at h
  exact (List.pairwise_append.mp h).2.2

end SortLemmas

section ScoreBounds

lemma ratio_nonneg (k n : ℕ) : 0 ≤ (k : ℚ) / max (n : ℚ) 1 :=
  div_nonneg (by positivity) (le_trans zero_le_one (le_max_right _ _))

lemma ratio_le_one (k n : ℕ) (h : k ≤ n) : (k : ℚ) / max (n : ℚ) 1 ≤ 1 := by
  rw [div_le_one (lt_of_lt_of_le zero_lt_one (le_max_right _ _))]
  exact le_trans (by exact_mod_cast h) (le_max_left _ _)

lemma techScore_bounds (a b : Student) : 0 ≤ techScore a b ∧ techScore a b ≤ 40 := by
  unfold techScore
  constructor
  · have := ratio_nonneg ((techNames a).filter
      (fun t => decide (t ∈ techNames b))).length (techNames a).length
    nlinarith
  · have := ratio_le_one ((techNames a).filter
      (fun t => decide (t ∈ techNames b))).length (techNames a).length
      (List.length_filter_le _ _)
    nlinarith

lemma abs_sub_le_maxActivity (a b : ℕ) :
    |(a : ℚ) - (b : ℚ)| ≤ max (max (a : ℚ) (b : ℚ)) 1 := by
  rcases le_total (a : ℚ) (b : ℚ) with h | h
  · rw [abs_sub_comm, abs_of_nonneg (by linarith)]
    have hb : (0 : ℚ) ≤ a := by positivity
    calc (b : ℚ) - a ≤ (b : ℚ) := by linarith
      _ ≤ max (a : ℚ) (b : ℚ) := le_max_right _ _
      _ ≤ max (max (a : ℚ) (b : ℚ)) 1 := le_max_left _ _
  · rw [abs_of_nonneg (by linarith)]
    have hb : (0 : ℚ) ≤ b := by positivity
    calc (a : ℚ) - b ≤ (a : ℚ) := by linarith
      _ ≤ max (a : ℚ) (b : ℚ) := le_max_left _ _
      _ ≤ max (max (a : ℚ) (b : ℚ)) 1 := le_max_left _ _

lemma activityScore_bounds (a b : Student) :
    0 ≤ activityScore a b ∧ activityScore a b ≤ 25 := by
  unfold activityScore
  have hmaxpos : (0 : ℚ) < max (max ((activityOf a : ℕ) : ℚ) ((activityOf b : ℕ) : ℚ)) 1 :=
    lt_of_lt_of_le zero_lt_one (le_max_right _ _)
  have habs : |((activityOf a : ℕ) : ℚ) - ((activityOf b : ℕ) : ℚ)| ≤
      max (max ((activityOf a : ℕ) : ℚ) ((activityOf b : ℕ) : ℚ)) 1 :=
    abs_sub_le_maxActivity _ _
  have hnonneg : (0 : ℚ) ≤ |((activityOf a : ℕ) : ℚ) - ((activityOf b : ℕ) : ℚ)| :=
    abs_nonneg _
  constructor
  · have hle1 : |((activityOf a : ℕ) : ℚ) - ((activityOf b : ℕ) : ℚ)| /
        max (max ((activityOf a : ℕ) : ℚ) ((activityOf b : ℕ) : ℚ)) 1 ≤ 1 :=
      (div_le_one hmaxpos).mpr habs
    nlinarith
  · have hge0 : 0 ≤ |((activityOf a : ℕ) : ℚ) - ((activityOf b : ℕ) : ℚ)| /
        max (max ((activityOf a : ℕ) : ℚ) ((activityOf b : ℕ) : ℚ)) 1 :=
      div_nonneg hnonneg (le_of_lt hmaxpos)
    nlinarith

lemma languageScore_bounds (a b : Student) :
    0 ≤ languageScore a b ∧ languageScore a b ≤ 20 := by
  unfold languageScore
  constructor
  · have := ratio_nonneg ((languageKeys a).filter
      (fun l => decide (l ∈ languageKeys b))).length (languageKeys a).length
    nlinarith
  · have := ratio_le_one ((languageKeys a).filter
      (fun l => decide (l ∈ languageKeys b))).length (languageKeys a).length
      (List.length_filter_le _ _)
    nlinarith

lemma projectScore_bounds (a b : Student) :
    5 ≤ projectScore a b ∧ projectScore a b ≤ 15 := by
  unfold projectScore
  constructor <;> split <;> norm_num

lemma compat_sum_bounds (a b : Student) :
    5 ≤ techScore a b + activityScore a b + languageScore a b + projectScore a b ∧
      techScore a b + activityScore a b + languageScore a b + projectScore a b ≤ 100 := by
  have h1 := techScore_bounds a b
  have h2 := activityScore_bounds a b
  have h3 := languageScore_bounds a b
  have h4 := projectScore_bounds a b
  constructor <;> linarith [h1.1, h1.2, h2.1, h2.2, h3.1, h3.2, h4.1, h4.2]

lemma calc_bounds (a b : Student) :
    5 ≤ calculateCompatibility a b ∧ calculateCompatibility a b ≤ 100 := by
  unfold calculateCompatibility
  have key : ∀ s : ℚ, 5 ≤ s → s ≤ 100 → 5 ≤ min (round s) 100 ∧ min (round s) 100 ≤ 100 := by
    intro s h5 h100
    have hround5 : (5 : ℤ) ≤ round s := by
      rw [round_eq]
      exact Int.le_floor.mpr (by push_cast; linarith)
    have hround100 : round s ≤ 100 := by
      rw [round_eq]
      have h : ⌊s + 1/2⌋ ≤ ⌊(100 : ℚ) + 1/2⌋ := Int.floor_le_floor (by linarith)
      have h2 : ⌊(100 : ℚ) + 1/2⌋ = 100 := by norm_num
      omega
    exact ⟨le_min hround5 (by norm_num), min_le_right _ _⟩
  exact key _ (compat_sum_bounds a b).1 (compat_sum_bounds a b).2

end ScoreBounds

section SelfScore

lemma techScore_self (a : Student) (ht : a.tech_stack ≠ []) : techScore a a = 40 := by
  unfold techScore
  have hfil : (techNames a).filter (fun t => decide (t ∈ techNames a)) = techNames a :=
    List.filter_eq_self.mpr (fun t htm => by simpa using htm)
  have hne : techNames a ≠ [] := by
    intro hnil
    simp only [techNames, List.map_eq_nil_iff] at hnil
    exact ht hnil
  have hlen : 0 < (techNames a).length := List.length_pos.mpr hne
  simp only [hfil]
  rw [max_eq_left (by exact_mod_cast hlen), div_self (by positivity)]
  norm_num

lemma activityScore_self (a : Student) : activityScore a a = 25 := by
  unfold activityScore
  simp

lemma languageScore_self (a : Student) (hl : a.github_stats.languages ≠ []) :
    languageScore a a = 20 := by
  unfold languageScore
  have hfil : (languageKeys a).filter (fun l => decide (l ∈ languageKeys a)) = languageKeys a :=
    List.filter_eq_self.mpr (fun t htm => by simpa using htm)
  have hne : languageKeys a ≠ [] := by
    intro hnil
    simp only [languageKeys, List.map_eq_nil_iff] at hnil
    exact hl hnil
  have hlen : 0 < (languageKeys a).length := List.length_pos.mpr hne
  simp only [hfil]
  rw [max_eq_left (by exact_mod_cast hlen), div_self (by positivity)]
  norm_num

lemma projectMatch_self (a : Student) : projectMatch a a = true := by
  simp only [projectMatch, jsIncludes, Bool.or_eq_true, decide_eq_true_eq]
  exact Or.inl ⟨[], [], by simp⟩

end SelfScore

/-- C2: for every pair of valid profiles, including profiles with empty
tech stack, empty language map and empty project list, the compatibility
score is an integer in the closed interval `[0, 100]`. -/
theorem C2_compatibility_in_range (a b : Student) :
    0 ≤ calculateCompatibility a b ∧ calculateCompatibility a b ≤ 100 :=
  ⟨le_trans (by norm_num) (calc_bounds a b).1, (calc_bounds a b).2⟩

/-- C3: comparing a fully specified profile (non-empty tech stack,
non-empty language map, non-empty project list) with itself gives a
compatibility score of exactly 100. -/
theorem C3_compatibility_self (a : Student) (ht : a.tech_stack ≠ [])
    (hl : a.github_stats.languages ≠ []) (_hp : a.projects ≠ []) :
    calculateCompatibility a a = 100 := by
  unfold calculateCompatibility
  rw [techScore_self a ht, activityScore_self a, languageScore_self a hl]
  rw [projectScore, if_pos (projectMatch_self a)]
  norm_num

/-- A fully specified sample profile used by the concrete witnesses. -/
def stuA : Student :=
  { id := "a"
    name := "Alice"
    github_username := "alice"
    bio := "frontend dev"
    tech_stack := [⟨"React", "expert", 90⟩, ⟨"Node", "advanced", 80⟩]
    github_stats :=
      { repos := 10
        followers := 5
        stars := 3
        forks := 1
        languages := [("TypeScript", 60), ("Python", 40)] }
    projects := ["chat app"]
    seeking := ["hackathon"] }

theorem C3_compatibility_self_witness : calculateCompatibility stuA stuA = 100 :=
  C3_compatibility_self stuA (by decide) (by decide) (by decide)

/-- C9: the compatibility score is always at least 5: the project term is
at least 5 and every other term is nonnegative; in particular two empty
project lists join to empty strings, the substring test succeeds, and the
project term is 15 rather than 0. -/
theorem C9_compatibility_at_least_five (a b : Student) :
    5 ≤ calculateCompatibility a b ∧ 5 ≤ projectScore a b ∧ 0 ≤ techScore a b ∧
      0 ≤ activityScore a b ∧ 0 ≤ languageScore a b ∧
      (a.projects = [] → b.projects = [] → projectScore a b = 15) := by
  refine ⟨(calc_bounds a b).1, (projectScore_bounds a b).1, (techScore_bounds a b).1,
    (activityScore_bounds a b).1, (languageScore_bounds a b).1, ?_⟩
  intro ha hb
  have hm : projectMatch a b = true := by
    simp only [projectMatch, jsIncludes, ha, hb, Bool.or_eq_true, decide_eq_true_eq]
    exact Or.inl ⟨[], [], by simp⟩
  rw [projectScore, if_pos hm]

/-- A sample profile with every collection empty. -/
def stuEmpty : Student :=
  { id := "e"
    name := ""
    github_username := "empty"
    bio := ""
    tech_stack := []
    github_stats := { repos := 0, followers := 0, stars := 0, forks := 0, languages := [] }
    projects := []
    seeking := [] }

theorem C9_compatibility_at_least_five_witness :
    5 ≤ calculateCompatibility stuEmpty stuEmpty ∧ projectScore stuEmpty stuEmpty = 15 := by
  have h := C9_compatibility_at_least_five stuEmpty stuEmpty
  exact ⟨h.1, h.2.2.2.2.2 rfl rfl⟩

/-- A raw profile whose tech-stack collection is absent. -/
def rawNoTech : RawStudent :=
  { id := "r1"
    tech_stack := none
    github_stats := { repos := 0, followers := 0, stars := 0, forks := 0, languages := some [] }
    projects := some [] }

/-- A raw profile with an empty tech stack, an absent language map and an
empty project list. -/
def rawEmptyA : RawStudent :=
  { id := "x"
    tech_stack := some []
    github_stats := { repos := 0, followers := 0, stars := 0, forks := 0, languages := none }
    projects := some [] }

/-- A raw profile with every collection present but empty. -/
def rawEmptyB : RawStudent :=
  { id := "y"
    tech_stack := some []
    github_stats := { repos := 2, followers := 1, stars := 0, forks := 0, languages := some [] }
    projects := some [] }

/-- C4 counterexample: the claim promises that the scorer does not fail
whenever a collection is empty or absent, but a profile whose tech-stack
list is absent makes the scorer throw a `TypeError`
(`main.tech_stack.map` on line 281 of api.ts has no guard). -/
theorem C4_counterexample :
    calculateCompatibilityJS rawNoTech rawNoTech =
      Except.error "TypeError: main.tech_stack is undefined" := rfl

/-- C4 (amended): when the tech-stack and project lists are present
(possibly empty), the scorer does not fail — an absent language map is
defaulted to empty by the `|| {}` guard — and an empty tech stack or
language map contributes zero to the score through the 1-floor divisor;
but an absent tech-stack or project list makes the scorer fail. -/
theorem C4_empty_collections_graceful :
    (∀ (a b : RawStudent) (ta tb : List TechEntry) (pa pb : List String),
        a.tech_stack = some ta → b.tech_stack = some tb →
        a.projects = some pa → b.projects = some pb →
        calculateCompatibilityJS a b =
          Except.ok (calculateCompatibility (defaultedStudent a) (defaultedStudent b))) ∧
    (∀ s t : Student, s.tech_stack = [] → techScore s t = 0) ∧
    (∀ s t : Student, s.github_stats.languages = [] → languageScore s t = 0) := by
  refine ⟨?_, ?_, ?_⟩
  · intro a b ta tb pa pb hta htb hpa hpb
    simp only [calculateCompatibilityJS, hta, htb, hpa, hpb]
    simp only [calculateCompatibility, techScore, activityScore, languageScore, projectScore,
      projectMatch, techNames, languageKeys, activityOf, defaultedStudent, hta, htb, hpa, hpb,
      Option.getD_some]
  · intro s t hs
    simp [techScore, techNames, hs]
  · intro s t hs
    simp [languageScore, languageKeys, hs]

theorem C4_empty_collections_graceful_witness :
    calculateCompatibilityJS rawEmptyA rawEmptyB =
        Except.ok (calculateCompatibility (defaultedStudent rawEmptyA)
          (defaultedStudent rawEmptyB)) ∧
      techScore (defaultedStudent rawEmptyA) (defaultedStudent rawEmptyB) = 0 ∧
      languageScore (defaultedStudent rawEmptyA) (defaultedStudent rawEmptyB) = 0 := by
  have h := C4_empty_collections_graceful
  exact ⟨h.1 rawEmptyA rawEmptyB [] [] [] [] rfl rfl rfl rfl,
    h.2.1 _ _ rfl, h.2.2 _ _ rfl⟩

/-- A profile with no tech stack and zero activity. -/
def stuZero : Student :=
  { id := "z0"
    name := ""
    github_username := "zero"
    bio := ""
    tech_stack := []
    github_stats := { repos := 0, followers := 0, stars := 0, forks := 0, languages := [] }
    projects := []
    seeking := [] }

/-- A profile with no tech stack and activity level 10. -/
def stuTen : Student :=
  { id := "z10"
    name := ""
    github_username := "ten"
    bio := ""
    tech_stack := []
    github_stats := { repos := 10, followers := 0, stars := 0, forks := 0, languages := [] }
    projects := []
    seeking := [] }

/-- C5 counterexample: at activity levels 0 and 10 the claimed formula
(activity similarity `1 - |a1 - a2| / max(a1, a2, 1)`, as in the
compatibility scorer) gives 0, while the source computes
`(1 - min(|a1 - a2| / 50, 1)) * 0.3 = 0.24` — the edge-strength activity
term uses a fixed 50 denominator, not the scorer formula. -/
theorem C5_counterexample :
    calculateConnectionStrength stuZero stuTen ≠
      claimedConnectionStrength stuZero stuTen := by
  have h1 : calculateConnectionStrength stuZero stuTen = 6/25 := by
    unfold calculateConnectionStrength
    norm_num [stuZero, stuTen, activityOf, abs_of_nonpos]
  have h2 : claimedConnectionStrength stuZero stuTen = 0 := by
    unfold claimedConnectionStrength
    norm_num [stuZero, stuTen, activityOf, abs_of_nonpos]
  rw [h1, h2]
  norm_num

/-- C5 (amended): the connection strength lies in `[0, 1]` and equals the
common-tech count times 0.4, plus `(1 - min(|a1 - a2| / 50, 1)) * 0.3`
(activity similarity with a fixed 50-unit scale, not the compatibility
scorer formula), capped at 1. -/
theorem C5_connection_strength_range (u v : Student) :
    0 ≤ calculateConnectionStrength u v ∧ calculateConnectionStrength u v ≤ 1 ∧
      calculateConnectionStrength u v =
        min ((((u.tech_stack.map (fun t => jsToLower t.name)).filter
              (fun t => decide (t ∈ v.tech_stack.map (fun t => jsToLower t.name)))).length : ℚ) *
            (4/10) +
          (1 - min (|(activityOf u : ℚ) - (activityOf v : ℚ)| / 50) 1) * (3/10)) 1 := by
  unfold calculateConnectionStrength
  set c : ℚ := (((u.tech_stack.map (fun t => jsToLower t.name)).filter
    (fun t => decide (t ∈ v.tech_stack.map (fun t => jsToLower t.name)))).length : ℚ) with hc
  set d : ℚ := |(activityOf u : ℚ) - (activityOf v : ℚ)| with hd
  have hc0 : 0 ≤ c := by rw [hc]; positivity
  have hmin1 : min (d / 50) 1 ≤ 1 := min_le_right _ _
  have hmin0 : 0 ≤ min (d / 50) 1 :=
    le_min (div_nonneg (hd ▸ abs_nonneg _) (by norm_num)) zero_le_one
  refine ⟨?_, min_le_right _ _, rfl⟩
  have : 0 ≤ c * (4/10) + (1 - min (d / 50) 1) * (3/10) := by nlinarith
  exact le_min this zero_le_one

/-- C8 counterexample: on an empty profile list the team function does not
return an empty result — `find` yields no anchor and `makeTeam` throws
`Main student not found`. -/
theorem C8_counterexample :
    makeTeam "anchor" ([] : List Student) =
      Except.error "Main student not found" := rfl

/-- C8 (amended): when the profile list is empty the team function fails
with the NotFound error (the anchor is necessarily absent); it does not
return an empty member list. -/
theorem C8_makeTeam_empty (anchorId : String) :
    makeTeam anchorId ([] : List Student) =
      Except.error "Main student not found" := rfl

/-- C10: when the lower-cased tech names are pairwise distinct within each
profile, the connection strength is symmetric. -/
theorem C10_connection_strength_symm (u v : Student)
    (hu : (u.tech_stack.map (fun t => jsToLower t.name)).Nodup)
    (hv : (v.tech_stack.map (fun t => jsToLower t.name)).Nodup) :
    calculateConnectionStrength u v = calculateConnectionStrength v u := by
  have hperm : List.Perm
      ((u.tech_stack.map (fun t => jsToLower t.name)).filter
        (fun t => decide (t ∈ v.tech_stack.map (fun t => jsToLower t.name))))
      ((v.tech_stack.map (fun t => jsToLower t.name)).filter
        (fun t => decide (t ∈ u.tech_stack.map (fun t => jsToLower t.name)))) := by
    refine (List.perm_ext_iff_of_nodup (hu.filter _) (hv.filter _)).mpr ?_
    intro a
    simp only [List.mem_filter, decide_eq_true_eq]
    tauto
  have hlen := hperm.length_eq
  unfold calculateConnectionStrength
  simp only [hlen, abs_sub_comm]

/-- A second fully specified sample profile, tech names distinct from the
first sample after lower-casing. -/
def stuB : Student :=
  { id := "b"
    name := "Bob"
    github_username := "bob"
    bio := ""
    tech_stack := [⟨"React", "advanced", 70⟩, ⟨"Python", "expert", 95⟩]
    github_stats :=
      { repos := 4
        followers := 2
        stars := 0
        forks := 0
        languages := [("Python", 80), ("TypeScript", 20)] }
    projects := ["chat app", "ml pipeline"]
    seeking := [] }

theorem C10_connection_strength_symm_witness :
    calculateConnectionStrength stuA stuB = calculateConnectionStrength stuB stuA :=
  C10_connection_strength_symm stuA stuB (by decide) (by decide)

section Boundary

lemma clamp_mem (lo hi x : ℝ) (h : lo ≤ hi) :
    lo ≤ max lo (min hi x) ∧ max lo (min hi x) ≤ hi :=
  ⟨le_max_left _ _, max_le h (min_le_left _ _)⟩

lemma clamp_idem (lo hi x : ℝ) :
    max lo (min hi (max lo (min hi x))) = max lo (min hi x) := by
  rcases le_total lo (min hi x) with h1 | h1
  · rw [max_eq_right h1, ← min_assoc, min_self, max_eq_right h1]
  · rw [max_eq_left h1, max_eq_left (min_le_right hi lo)]

lemma applyForces_x (node : SimNode) (allNodes : List SimNode) (allEdges : List SimEdge) :
    (applyForces node allNodes allEdges).x =
      clampX node.radius (node.x + (stepVelocity node allNodes allEdges).1 * 0.1) := rfl

lemma applyForces_y (node : SimNode) (allNodes : List SimNode) (allEdges : List SimEdge) :
    (applyForces node allNodes allEdges).y =
      clampY node.radius (node.y + (stepVelocity node allNodes allEdges).2 * 0.1) := rfl

end Boundary

/-- C7: for any input position and velocity (also far outside the canvas),
one `applyForces` step leaves the node position inside
`[radius + 15, dimension - radius - 15]` on both axes (the node radius,
which the step never changes, is small enough for the built nodes, whose
radius is 22), and the boundary clamp is idempotent on both axes. -/
theorem C7_step_in_bounds (node : SimNode) (allNodes : List SimNode)
    (allEdges : List SimEdge) (h : node.radius + 15 ≤ 200) :
    (node.radius + 15 ≤ (applyForces node allNodes allEdges).x ∧
      (applyForces node allNodes allEdges).x ≤ CANVAS_WIDTH - (node.radius + 15) ∧
      node.radius + 15 ≤ (applyForces node allNodes allEdges).y ∧
      (applyForces node allNodes allEdges).y ≤ CANVAS_HEIGHT - (node.radius + 15)) ∧
    (∀ x : ℝ, clampX node.radius (clampX node.radius x) = clampX node.radius x) ∧
    (∀ y : ℝ, clampY node.radius (clampY node.radius y) = clampY node.radius y) := by
  have hx : node.radius + 15 ≤ CANVAS_WIDTH - (node.radius + 15) := by
    unfold CANVAS_WIDTH
    linarith
  have hy : node.radius + 15 ≤ CANVAS_HEIGHT - (node.radius + 15) := by
    unfold CANVAS_HEIGHT
    linarith
  refine ⟨?_, ?_, ?_⟩
  · rw [applyForces_x, applyForces_y]
    unfold clampX clampY
    exact ⟨(clamp_mem _ _ _ hx).1, (clamp_mem _ _ _ hx).2,
      (clamp_mem _ _ _ hy).1, (clamp_mem _ _ _ hy).2⟩
  · intro x
    unfold clampX
    exact clamp_idem _ _ x
  · intro y
    unfold clampY
    exact clamp_idem _ _ y

/-- A sample node far outside the canvas, with the radius 22 that the
graph builder assigns. -/
def nodeFar : SimNode :=
  { id := "n", x := 5000, y := -300, vx := 4, vy := -2, radius := 22 }

theorem C7_step_in_bounds_witness :
    nodeFar.radius + 15 ≤ 200 ∧
      ((nodeFar.radius + 15 ≤ (applyForces nodeFar [] []).x ∧
        (applyForces nodeFar [] []).x ≤ CANVAS_WIDTH - (nodeFar.radius + 15) ∧
        nodeFar.radius + 15 ≤ (applyForces nodeFar [] []).y ∧
        (applyForces nodeFar [] []).y ≤ CANVAS_HEIGHT - (nodeFar.radius + 15)) ∧
      (∀ x : ℝ, clampX nodeFar.radius (clampX nodeFar.radius x) = clampX nodeFar.radius x) ∧
      (∀ y : ℝ, clampY nodeFar.radius (clampY nodeFar.radius y) = clampY nodeFar.radius y)) :=
  ⟨by norm_num [nodeFar], C7_step_in_bounds nodeFar [] [] (by norm_num [nodeFar])⟩

/-- C1: for every profile list and anchor id, `makeTeam` fails with the
NotFound error when no profile carries the anchor id; otherwise it returns
at most 3 members, none with the anchor id, sorted by descending
compatibility score, and stably so — for every score value the members
with that score are an initial segment of the scored candidates with that
score, in original list order. -/
theorem C1_makeTeam_spec (mainStudentId : String) (allStudents : List Student) :
    ((∀ s ∈ allStudents, s.id ≠ mainStudentId) →
      makeTeam mainStudentId allStudents = Except.error "Main student not found") ∧
    (∀ mainStudent,
      allStudents.find? (fun s => decide (s.id = mainStudentId)) = some mainStudent →
      ∃ members, makeTeam mainStudentId allStudents = Except.ok members ∧
        members.length ≤ 3 ∧
        (∀ p ∈ members, p.1.id ≠ mainStudentId) ∧
        members.Pairwise (fun p q => q.2 ≤ p.2) ∧
        (∀ z : ℤ, ∃ rest, members.filter (fun p => decide (p.2 = z)) ++ rest =
          (scoreCandidates mainStudent
              (allStudents.filter (fun s => decide (s.id ≠ mainStudentId)))).filter
            (fun p => decide (p.2 = z)))) := by
  constructor
  · intro h
    have hnone : allStudents.find? (fun s => decide (s.id = mainStudentId)) = none :=
      List.find?_eq_none.mpr (fun x hx => by simpa using h x hx)
    unfold makeTeam
    rw [hnone]
  · intro mainStudent hfind
    unfold makeTeam
    rw [hfind]
    refine ⟨(sortByDesc Prod.snd (scoreCandidates mainStudent
      (allStudents.filter (fun s => decide (s.id ≠ mainStudentId))))).take 3,
      rfl, ?_, ?_, ?_, ?_⟩
    · rw [List.length_take]
      exact min_le_left _ _
    · intro p hp
      have hp2 : p ∈ sortByDesc Prod.snd (scoreCandidates mainStudent
          (allStudents.filter (fun s => decide (s.id ≠ mainStudentId)))) :=
        List.take_subset _ _ hp
      have hp3 : p ∈ scoreCandidates mainStudent
          (allStudents.filter (fun s => decide (s.id ≠ mainStudentId))) :=
        (sortByDesc_perm Prod.snd _).mem_iff.mp hp2
      obtain ⟨s, hs, rfl⟩ := List.mem_map.mp hp3
      have := List.of_mem_filter hs
      simpa using this
    · exact ((sortByDesc_pairwise Prod.snd _)).sublist (List.take_sublist 3 _)
    · intro z
      refine ⟨((sortByDesc Prod.snd (scoreCandidates mainStudent
        (allStudents.filter (fun s => decide (s.id ≠ mainStudentId))))).drop 3).filter
          (fun p => decide (p.2 = z)), ?_⟩
      rw [← List.filter_append, List.take_append_drop, sortByDesc_filter]

theorem C1_makeTeam_spec_witness :
    ∃ members, makeTeam "a" [stuA, stuB] = Except.ok members ∧
      members.length ≤ 3 ∧
      (∀ p ∈ members, p.1.id ≠ "a") ∧
      members.Pairwise (fun p q => q.2 ≤ p.2) ∧
      (∀ z : ℤ, ∃ rest, members.filter (fun p => decide (p.2 = z)) ++ rest =
        (scoreCandidates stuA
            ([stuA, stuB].filter (fun s => decide (s.id ≠ "a")))).filter
          (fun p => decide (p.2 = z))) :=
  (C1_makeTeam_spec "a" [stuA, stuB]).2 stuA rfl

section GraphEdges

lemma nodeEdges_elim {users : List Student} {i : ℕ} {u : Student} {e : GraphEdge}
    (he : e ∈ nodeEdges users i u) :
    ∃ p, p ∈ (sortByDesc Prod.snd (nodeCandidates users i u)).take
        (min 3 (users.length - 1)) ∧
      (3:ℚ)/10 < p.2 ∧ e = ⟨i, p.1, p.2⟩ := by
  unfold nodeEdges at he
  obtain ⟨p, hp, rfl⟩ := List.mem_map.mp he
  exact ⟨p, List.mem_of_mem_filter hp, by simpa using List.of_mem_filter hp, rfl⟩

lemma nodeEdges_intro {users : List Student} {i : ℕ} {u : Student} {p : ℕ × ℚ}
    (hp : p ∈ (sortByDesc Prod.snd (nodeCandidates users i u)).take
      (min 3 (users.length - 1)))
    (hs : (3:ℚ)/10 < p.2) :
    (⟨i, p.1, p.2⟩ : GraphEdge) ∈ nodeEdges users i u := by
  unfold nodeEdges
  exact List.mem_map_of_mem _ (List.mem_filter.mpr ⟨hp, by simpa using hs⟩)

lemma nodeEdges_source {users : List Student} {i : ℕ} {u : Student} {e : GraphEdge}
    (he : e ∈ nodeEdges users i u) : e.source = i := by
  obtain ⟨p, _, _, rfl⟩ := nodeEdges_elim he
  rfl

lemma nodeEdges_length_le (users : List Student) (i : ℕ) (u : Student) :
    (nodeEdges users i u).length ≤ 3 := by
  unfold nodeEdges
  rw [List.length_map]
  refine le_trans (List.length_filter_le _ _) ?_
  rw [List.length_take]
  exact le_trans (min_le_left _ _) (min_le_left _ _)

lemma nodeCandidates_elim {users : List Student} {i : ℕ} {u : Student} {c : ℕ × ℚ}
    (hc : c ∈ nodeCandidates users i u) :
    ∃ q, q ∈ users.enum ∧ q.1 ≠ i ∧ c = (q.1, calculateConnectionStrength u q.2) := by
  unfold nodeCandidates at hc
  obtain ⟨q, hq, rfl⟩ := List.mem_map.mp hc
  exact ⟨q, List.mem_of_mem_filter hq, by simpa using List.of_mem_filter hq, rfl⟩

lemma nodeCandidates_intro {users : List Student} {i : ℕ} {u : Student} {q : ℕ × Student}
    (hq : q ∈ users.enum) (hne : q.1 ≠ i) :
    (q.1, calculateConnectionStrength u q.2) ∈ nodeCandidates users i u := by
  unfold nodeCandidates
  exact List.mem_map_of_mem _ (List.mem_filter.mpr ⟨hq, by simpa using hne⟩)

lemma enum_fst_nodup (users : List Student) : (users.enum.map Prod.fst).Nodup := by
  rw [List.enum_map_fst]
  exact List.nodup_range _

lemma eq_of_mem_enum_fst {l : List (ℕ × Student)} (h : (l.map Prod.fst).Nodup)
    {a b : ℕ × Student} (ha : a ∈ l) (hb : b ∈ l) (hab : a.1 = b.1) : a = b := by
  induction l with
  | nil => cases ha
  | cons c l ih =>
    rw [List.map_cons, List.nodup_cons] at h
    rcases List.mem_cons.mp ha with rfl | ha2
    · rcases List.mem_cons.mp hb with rfl | hb2
      · rfl
      · exfalso
        apply h.1
        rw [hab]
        exact List.mem_map_of_mem Prod.fst hb2
    · rcases List.mem_cons.mp hb with rfl | hb2
      · exfalso
        apply h.1
        rw [← hab]
        exact List.mem_map_of_mem Prod.fst ha2
      · exact ih h.2 ha2 hb2

lemma countP_flatMap {α β : Type} (l : List α) (f : α → List β) (p : β → Bool) :
    (l.flatMap f).countP p = (l.map (fun a => (f a).countP p)).sum := by
  rw [List.flatMap_def, List.countP_flatten, List.map_map]
  rfl

lemma sum_le_three_of_single {l : List (ℕ × Student)} {g : ℕ × Student → ℕ} (i : ℕ)
    (hnd : (l.map Prod.fst).Nodup)
    (h0 : ∀ p ∈ l, p.1 ≠ i → g p = 0)
    (h3 : ∀ p ∈ l, g p ≤ 3) :
    (l.map g).sum ≤ 3 := by
  induction l with
  | nil => simp
  | cons c l ih =>
    rw [List.map_cons, List.sum_cons]
    rw [List.map_cons, List.nodup_cons] at hnd
    rcases eq_or_ne c.1 i with hci | hci
    · have hrest : (l.map g).sum = 0 := by
        apply List.sum_eq_zero
        intro x hx
        obtain ⟨q, hq, rfl⟩ := List.mem_map.mp hx
        refine h0 q (List.mem_cons_of_mem _ hq) ?_
        intro hqi
        apply hnd.1
        rw [hci, ← hqi]
        exact List.mem_map_of_mem Prod.fst hq
      have hc3 : g c ≤ 3 := h3 c (List.mem_cons_self _ _)
      omega
    · have hc0 : g c = 0 := h0 c (List.mem_cons_self _ _) hci
      have hrec := ih hnd.2 (fun p hp hpi => h0 p (List.mem_cons_of_mem _ hp) hpi)
        (fun p hp => h3 p (List.mem_cons_of_mem _ hp))
      omega

lemma buildEdges_countP (users : List Student) (i : ℕ) :
    (buildEdges users).countP (fun e => decide (e.source = i)) ≤ 3 := by
  unfold buildEdges
  rw [countP_flatMap]
  refine sum_le_three_of_single i (enum_fst_nodup users) ?_ ?_
  · intro p _ hpi
    apply List.countP_eq_zero.mpr
    intro e he
    have hsrc := nodeEdges_source he
    simp [hsrc, hpi]
  · intro p _
    exact le_trans (List.countP_le_length _) (nodeEdges_length_le users p.1 p.2)

end GraphEdges

/-- C6: every built edge has strength strictly above the 0.3 threshold and
never connects a node to itself; every node is the source of at most 3
edges; and the chosen targets are top by strength — any other node that is
not targeted from a given source has connection strength at most that of
every edge the source got. -/
theorem C6_buildEdges_spec (users : List Student) :
    (∀ e ∈ buildEdges users, (3:ℚ)/10 < e.strength ∧ e.source ≠ e.target) ∧
    (∀ i : ℕ, (buildEdges users).countP (fun e => decide (e.source = i)) ≤ 3) ∧
    (∀ e ∈ buildEdges users, ∀ p ∈ users.enum, p.1 = e.source →
      ∀ q ∈ users.enum, q.1 ≠ e.source →
        (∀ e2 ∈ buildEdges users, e2.source = e.source → e2.target ≠ q.1) →
        calculateConnectionStrength p.2 q.2 ≤ e.strength) := by
  refine ⟨?_, fun i => buildEdges_countP users i, ?_⟩
  · intro e he
    obtain ⟨r, hr, he2⟩ := List.mem_flatMap.mp he
    obtain ⟨c, hc, hlt, rfl⟩ := nodeEdges_elim he2
    refine ⟨hlt, ?_⟩
    have hc2 : c ∈ nodeCandidates users r.1 r.2 :=
      (sortByDesc_perm Prod.snd _).mem_iff.mp (List.take_subset _ _ hc)
    obtain ⟨q, _, hqne, hcq⟩ := nodeCandidates_elim hc2
    have : c.1 = q.1 := by rw [hcq]
    simpa [this] using hqne.symm
  · intro e he p hp hpe q hq hqne hnoedge
    obtain ⟨r, hr, he2⟩ := List.mem_flatMap.mp he
    have hsrc : e.source = r.1 := nodeEdges_source he2
    have hpr : p = r := eq_of_mem_enum_fst (enum_fst_nodup users) hp hr (by rw [hpe, hsrc])
    subst hpr
    obtain ⟨c, hcmem, hclt, hce⟩ := nodeEdges_elim he2
    have hqp : q.1 ≠ p.1 := by
      rw [← hsrc]
      exact hqne
    have hqc : (q.1, calculateConnectionStrength p.2 q.2) ∈ nodeCandidates users p.1 p.2 :=
      nodeCandidates_intro hq hqp
    have hqsorted : (q.1, calculateConnectionStrength p.2 q.2) ∈
        sortByDesc Prod.snd (nodeCandidates users p.1 p.2) :=
      (sortByDesc_perm Prod.snd _).mem_iff.mpr hqc
    rw [← List.take_append_drop (min 3 (users.length - 1))
      (sortByDesc Prod.snd (nodeCandidates users p.1 p.2))] at hqsorted
    rcases List.mem_append.mp hqsorted with hqt | hqd
    · by_cases hql : (3:ℚ)/10 < calculateConnectionStrength p.2 q.2
      · exfalso
        have hedge : (⟨p.1, q.1, calculateConnectionStrength p.2 q.2⟩ : GraphEdge) ∈
            nodeEdges users p.1 p.2 := nodeEdges_intro hqt hql
        have hbe : (⟨p.1, q.1, calculateConnectionStrength p.2 q.2⟩ : GraphEdge) ∈
            buildEdges users := List.mem_flatMap.mpr ⟨p, hp, hedge⟩
        exact (hnoedge _ hbe hsrc.symm) rfl
      · push_neg at hql
        rw [hce]
        exact le_of_lt (lt_of_le_of_lt hql hclt)
    · have hpair := pairwise_take_drop
        (sortByDesc_pairwise Prod.snd (nodeCandidates users p.1 p.2))
        (min 3 (users.length - 1)) c hcmem _ hqd
      rw [hce]
      simpa using hpair

/-- Witness user 1: tech `react`, zero activity. -/
def w1 : Student :=
  { id := "w1"
    name := ""
    github_username := "w1"
    bio := ""
    tech_stack := [⟨"react", "expert", 90⟩]
    github_stats := { repos := 0, followers := 0, stars := 0, forks := 0, languages := [] }
    projects := []
    seeking := [] }

/-- Witness user 2: tech `react`, zero activity. -/
def w2 : Student :=
  { id := "w2"
    name := ""
    github_username := "w2"
    bio := ""
    tech_stack := [⟨"react", "expert", 90⟩]
    github_stats := { repos := 0, followers := 0, stars := 0, forks := 0, languages := [] }
    projects := []
    seeking := [] }

/-- Witness user 3: tech `vue`, activity level 100. -/
def w3 : Student :=
  { id := "w3"
    name := ""
    github_username := "w3"
    bio := ""
    tech_stack := [⟨"vue", "expert", 90⟩]
    github_stats := { repos := 100, followers := 0, stars := 0, forks := 0, languages := [] }
    projects := []
    seeking := [] }

section WitnessEval

lemma wit_s12 : calculateConnectionStrength w1 w2 = 7/10 := by
  unfold calculateConnectionStrength
  norm_num [w1, w2, activityOf]

lemma wit_s21 : calculateConnectionStrength w2 w1 = 7/10 := by
  unfold calculateConnectionStrength
  norm_num [w1, w2, activityOf]

lemma wit_ne_rv : jsToLower "react" ≠ jsToLower "vue" := by decide

lemma wit_s13 : calculateConnectionStrength w1 w3 = 0 := by
  unfold calculateConnectionStrength
  norm_num [w1, w3, activityOf, wit_ne_rv, abs_of_nonpos]

lemma wit_s23 : calculateConnectionStrength w2 w3 = 0 := by
  unfold calculateConnectionStrength
  norm_num [w2, w3, activityOf, wit_ne_rv, abs_of_nonpos]

lemma wit_s31 : calculateConnectionStrength w3 w1 = 0 := by
  unfold calculateConnectionStrength
  norm_num [w1, w3, activityOf, wit_ne_rv.symm, abs_of_nonneg]

lemma wit_s32 : calculateConnectionStrength w3 w2 = 0 := by
  unfold calculateConnectionStrength
  norm_num [w2, w3, activityOf, wit_ne_rv.symm, abs_of_nonneg]

lemma wit_enum : ([w1, w2, w3] : List Student).enum = [(0, w1), (1, w2), (2, w3)] := rfl

lemma wit_n0 : nodeEdges [w1, w2, w3] 0 w1 = [⟨0, 1, 7/10⟩] := by
  unfold nodeEdges nodeCandidates
  rw [wit_enum]
  norm_num [wit_s12, wit_s13, sortByDesc, insertDesc, List.take, List.filter_cons]

lemma wit_n1 : nodeEdges [w1, w2, w3] 1 w2 = [⟨1, 0, 7/10⟩] := by
  unfold nodeEdges nodeCandidates
  rw [wit_enum]
  norm_num [wit_s21, wit_s23, sortByDesc, insertDesc, List.take, List.filter_cons]

lemma wit_n2 : nodeEdges [w1, w2, w3] 2 w3 = [] := by
  unfold nodeEdges nodeCandidates
  rw [wit_enum]
  norm_num [wit_s31, wit_s32, sortByDesc, insertDesc, List.take, List.filter_cons]

lemma wit_buildEdges : buildEdges [w1, w2, w3] = [⟨0, 1, 7/10⟩, ⟨1, 0, 7/10⟩] := by
  unfold buildEdges
  rw [wit_enum]
  simp [List.flatMap_cons, wit_n0, wit_n1, wit_n2]

end WitnessEval

theorem C6_buildEdges_spec_witness :
    calculateConnectionStrength w1 w3 ≤ ((⟨0, 1, 7/10⟩ : GraphEdge)).strength := by
  have h := (C6_buildEdges_spec [w1, w2, w3]).2.2
  refine h ⟨0, 1, 7/10⟩ ?_ (0, w1) ?_ rfl (2, w3) ?_ (by decide) ?_
  · rw [wit_buildEdges]
    exact List.mem_cons_self _ _
  · exact List.mem_cons_self _ _
  · exact List.mem_cons_of_mem _ (List.mem_cons_of_mem _ (List.mem_cons_self _ _))
  · intro e2 he2 hs2
    rw [wit_buildEdges] at he2
    rcases List.mem_cons.mp he2 with rfl | he2
    · decide
    · rcases List.mem_cons.mp he2 with rfl | he2
      · exact absurd hs2 (by decide)
      · cases he2

end CollabVerse
